import Mathlib

/-!
Shallow embedding of the order-generation core of the `amazon_order`
repository, together with theorems settling the frozen claims about it.

Source files embedded here:
* `order_generation/direct_sku_to_json.py`  (`_compute_all_items`)
* `order_generation/merge_json_templates.py` (`_select_cell`, `merge_json_templates`)
* `order_generation/excel_to_json.py`       (`guess_key`, `read_workbook`)
* `order_generation/advanced_excel_to_json.py` (`convert_number`, `parse_table`)
* `order_generation/json_PO_excel.py`       (`verify_cells`, `fill_cells`,
  `insert_products`, `create_order_workbook`)

Modelling conventions:
* Python dicts become association lists (`Dict α`) iterated in insertion
  order; `dict.get`/`dict.__setitem__` become `dictGet`/`dictSet`.
* Python's heterogeneous JSON scalars become `Val` (string / int / float,
  with floats read exactly as rationals).
* Machine-level concerns (XML parsing, the zip container, cell formatting,
  images on disk) are modelled at the structural level: the zip package is a
  record of optional already-parsed parts, formatting operations are
  value-preserving, and the success of image attachment is an oracle
  parameter.
* Fallible Python code (uncaught exceptions) is modelled with `Option` /
  `Except`.
-/

/-! ### Association lists standing for Python dicts -/

abbrev Dict (α : Type) : Type := List (String × α)

def dictGet {α : Type} : Dict α → String → Option α
  | [], _ => none
  | (k', v) :: rest, k => if k' = k then some v else dictGet rest k

def dictGetD {α : Type} (m : Dict α) (k : String) (d : α) : α :=
  (dictGet m k).getD d

/-- Python `d[k] = v`: replace in place when the key exists, else append. -/
def dictSet {α : Type} : Dict α → String → α → Dict α
  | [], k, v => [(k, v)]
  | (k', v') :: rest, k, v =>
    if k' = k then (k', v) :: rest else (k', v') :: dictSet rest k v

def dictKeys {α : Type} (m : Dict α) : List String := m.map (·.1)

/-! ### Python scalar values -/

/-- JSON/spreadsheet scalar as the Python code sees it.  Python floats are
read exactly (as rationals); no claim inspects float arithmetic. -/
inductive Val : Type
  | vs (s : String)
  | vi (n : Int)
  | vf (q : Rat)
deriving DecidableEq

/-- Python truthiness of a scalar (`""`, `0`, `0.0` are falsy). -/
def Val.truthy : Val → Bool
  | .vs s => s ≠ ""
  | .vi n => n ≠ 0
  | .vf q => q ≠ 0

/-- Python `str()` of a scalar (used only to build message/cell text). -/
def Val.pyStr : Val → String
  | .vs s => s
  | .vi n => toString n
  | .vf q => toString q

/-! ### Python `int(...)` and `float(...)` on strings -/

/-- Python `str.strip()` (ASCII whitespace suffices for this corpus). -/
def pyStrip (s : String) : String :=
  ⟨((s.toList.dropWhile Char.isWhitespace).reverse.dropWhile
      Char.isWhitespace).reverse⟩

/-- `s.startswith(pre)`. -/
def strStartsWith (s pre : String) : Bool :=
  pre.toList.isPrefixOf s.toList

/-- Python `c in s` for a single character. -/
def strContainsChar (s : String) (c : Char) : Bool :=
  s.toList.contains c

/-- Split a character list on a separator character (list analogue of
`str.split(sep)`, separators not kept). -/
def splitOnChar (c : Char) : List Char → List (List Char)
  | [] => [[]]
  | x :: rest =>
    match splitOnChar c rest, decide (x = c) with
    | r, true => [] :: r
    | [], false => [[x]]
    | h :: t, false => (x :: h) :: t

def digitsToNat (cs : List Char) : Nat :=
  cs.foldl (fun n c => n * 10 + (c.toNat - 48)) 0

/-- Python `int(s)` on a string: strip whitespace, optional sign, decimal
digits (digit-group underscores are not used by this repository's data and
are not modelled). `none` models a raised `ValueError`. -/
def pyParseInt (s : String) : Option Int :=
  let t := (pyStrip s).toList
  let p : Int × List Char :=
    match t with
    | '-' :: rest => (-1, rest)
    | '+' :: rest => (1, rest)
    | cs => (1, cs)
  if p.2 ≠ [] ∧ p.2.all Char.isDigit then
    some (p.1 * (digitsToNat p.2 : Int))
  else
    none

/-- Signed digit run (no surrounding whitespace), used for float exponents. -/
def parseSignedDigits (cs : List Char) : Option Int :=
  let p : Int × List Char :=
    match cs with
    | '-' :: rest => (-1, rest)
    | '+' :: rest => (1, rest)
    | l => (1, l)
  if p.2 ≠ [] ∧ p.2.all Char.isDigit then
    some (p.1 * (digitsToNat p.2 : Int))
  else
    none

/-- Mantissa of a Python float literal: digits with at most one dot, at
least one digit overall.  Returns the exact rational value. -/
def parseMantissa (cs : List Char) : Option Rat :=
  match splitOnChar '.' cs with
  | [a] =>
    if a ≠ [] ∧ a.all Char.isDigit then
      some ((digitsToNat a : Int) : Rat)
    else none
  | [a, b] =>
    if (a.all Char.isDigit ∧ b.all Char.isDigit) ∧ a.length + b.length ≠ 0 then
      some (((digitsToNat a : Int) : Rat) +
        ((digitsToNat b : Int) : Rat) / ((10 : Rat) ^ b.length))
    else none
  | _ => none

/-- Python `float(s)` on a string: strip, optional sign, mantissa with an
optional `e`/`E` exponent (the `inf`/`nan` spellings, irrelevant here, are
not modelled).  `none` models a raised `ValueError`. -/
def pyParseFloat (s : String) : Option Rat :=
  let t := (pyStrip s).toList
  let p : Rat × List Char :=
    match t with
    | '-' :: rest => (-1, rest)
    | '+' :: rest => (1, rest)
    | cs => (1, cs)
  let norm := p.2.map (fun c => if c = 'E' then 'e' else c)
  match splitOnChar 'e' norm with
  | [m] => (parseMantissa m).map (fun q => p.1 * q)
  | [m, e] =>
    match parseMantissa m, parseSignedDigits e with
    | some q, some ex => some (p.1 * q * ((10 : Rat) ^ ex))
    | _, _ => none
  | _ => none

/-! ### `advanced_excel_to_json.convert_number` -/

/-- `convert_number(val)`: blank → `""`; strings containing `.` go through
`float`, others through `int`; any parse failure falls back to the raw
string (the whole body is wrapped in `try/except Exception`). -/
def convert_number (val : String) : Val :=
  if pyStrip val = "" then .vs ""
  else if strContainsChar val '.' then
    match pyParseFloat val with
    | some q => .vf q
    | none => .vs val
  else
    match pyParseInt val with
    | some n => .vi n
    | none => .vs val

/-! ### `direct_sku_to_json._compute_all_items` -/

/-- A JSON ratio value as stored in `complete_mapping.json`: an integer or a
string fed to Python `int(...)`. -/
inductive RVal : Type
  | i (n : Int)
  | s (str : String)
deriving DecidableEq

/-- One entry of a child's `accessories` list.  A `none` field models an
absent key (so `acc.get("ratio_main", 1)` falls back to `1`). -/
structure Accessory : Type where
  sku : Option String := none
  ratio_main : Option RVal := none
  ratio_accessory : Option RVal := none
deriving DecidableEq

/-- `int(acc.get("ratio_main", 1))`: the default `1` always parses; an
integer value is returned unchanged; a string value goes through Python
`int`. -/
def pyIntOfRV : Option RVal → Option Int
  | none => some 1
  | some (.i n) => some n
  | some (.s str) => pyParseInt str

/-- The `(main, accessory)` pair actually used for an entry: the `try`
block parses both ratios, and a `ValueError` in either parse makes the
`except` arm set both to `1`. -/
def effRatios (a : Accessory) : Int × Int :=
  match pyIntOfRV a.ratio_main, pyIntOfRV a.ratio_accessory with
  | some m, some acc => (m, acc)
  | _, _ => (1, 1)

/-- Running totals keyed by SKU; `result.get(sku, 0)` makes the Python dict
behave as a total map defaulting to `0`. -/
def updF (r : String → Int) (k : String) (v : Int) : String → Int :=
  fun x => if x = k then v else r x

/-- Body of the inner accessory loop of `_compute_all_items`.  `none`
models the uncaught `ZeroDivisionError` of `qty * accessory // main` when
the parsed `main` is `0`; Python `//` is floor division (`Int.fdiv`). -/
def accStep (qty : Int) (r : String → Int) (a : Accessory) :
    Option (String → Int) :=
  let p := effRatios a
  if p.1 = 0 then none
  else
    let accQty := Int.fdiv (qty * p.2) p.1
    match a.sku with
    | some s => if s ≠ "" then some (updF r s (r s + accQty)) else some r
    | none => some r

def foldAccs (qty : Int) : List Accessory → (String → Int) →
    Option (String → Int)
  | [], r => some r
  | a :: rest, r =>
    match accStep qty r a with
    | none => none
    | some r' => foldAccs qty rest r'

def foldReqs (mp : Dict (List Accessory)) :
    List (String × Int) → (String → Int) → Option (String → Int)
  | [], r => some r
  | p :: rest, r =>
    match foldAccs p.2 (dictGetD mp p.1 []) (updF r p.1 (r p.1 + p.2)) with
    | none => none
    | some r' => foldReqs mp rest r'

/-- `_compute_all_items(requests, mapping)`: seed each requested SKU with
its quantity, then accumulate accessory quantities via stored ratios. -/
def compute_all_items (requests : List (String × Int))
    (mp : Dict (List Accessory)) : Option (String → Int) :=
  foldReqs mp requests (fun _ => 0)

/-- Requested quantity landing on SKU `s` (sum over request entries with
that key). -/
def reqSum (requests : List (String × Int)) (s : String) : Int :=
  (requests.map (fun p => if p.1 = s then p.2 else 0)).sum

/-- Accessory quantity contributed to SKU `s` by one parent requested at
`qty`, per its accessory list. -/
def accContrib (qty : Int) (accs : List Accessory) (s : String) : Int :=
  (accs.map (fun a =>
    if a.sku = some s ∧ s ≠ "" then
      Int.fdiv (qty * (effRatios a).2) (effRatios a).1
    else 0)).sum

/-- Total accessory quantity landing on SKU `s` across all requests. -/
def accSum (requests : List (String × Int)) (mp : Dict (List Accessory))
    (s : String) : Int :=
  (requests.map (fun p => accContrib p.2 (dictGetD mp p.1 []) s)).sum

/-! ### `merge_json_templates` -/

/-- One labeled cell of an order document: `{"key": ..., "value": ...}`.
`key := none` models an absent `"key"` entry. -/
structure CellInfo : Type where
  key : Option String := none
  value : Val
deriving DecidableEq

/-- A product line item is a JSON object (field name → scalar). -/
abbrev Prod' : Type := Dict Val

/-- An order document: `{cells, products, footer}`. -/
structure Doc : Type where
  cells : Dict CellInfo := []
  products : List Prod' := []
  footer : Dict Val := []

/-- The stderr diagnostic `_select_cell` prints on a conflict, naming both
values. -/
def conflictMsg (addr : String) (kept ignored : Val) : String :=
  "conflicting value for cell " ++ addr ++ ": keeping " ++ kept.pyStr ++
    " and ignoring " ++ ignored.pyStr

/-- `_select_cell(existing, new, addr)`: first non-empty value wins; a
differing later non-empty value is reported (second component) and
ignored. -/
def select_cell (existing : Option CellInfo) (new : CellInfo)
    (addr : String) : CellInfo × List String :=
  match existing with
  | none => (new, [])
  | some ex =>
    if ¬ ex.value.truthy then (new, [])
    else if new.value.truthy ∧ new.value ≠ ex.value then
      (ex, [conflictMsg addr ex.value new.value])
    else (ex, [])

/-- The `for addr, info in cells.items()` loop of `merge_json_templates`,
collecting conflict diagnostics in print order. -/
def mergeCellsFrom (m : Dict CellInfo) (diags : List String) :
    List (String × CellInfo) → Dict CellInfo × List String
  | [] => (m, diags)
  | (addr, info) :: rest =>
    let p := select_cell (dictGet m addr) info addr
    mergeCellsFrom (dictSet m addr p.1) (diags ++ p.2) rest

/-- The footer loop: first value wins for a key unless the stored one is
falsy; later non-empty values are dropped silently. -/
def mergeFooter (f : Dict Val) : List (String × Val) → Dict Val
  | [] => f
  | (k, v) :: rest =>
    mergeFooter
      (match dictGet f k with
       | none => dictSet f k v
       | some ex => if ¬ ex.truthy then dictSet f k v else f) rest

/-- Merge one further document into the accumulated one. -/
def mergeOne (m : Doc) (diags : List String) (d : Doc) : Doc × List String :=
  let p := mergeCellsFrom m.cells diags d.cells
  { cells := p.1
    products := m.products ++ d.products
    footer := mergeFooter m.footer d.footer } |> (·, p.2)

def mergeList (m : Doc) (diags : List String) : List Doc → Doc × List String
  | [] => (m, diags)
  | d :: rest =>
    let p := mergeOne m diags d
    mergeList p.1 p.2 rest

/-- `merge_json_templates(paths)` on the already-loaded documents: the
first acts as the base, the rest are folded in; the second component
collects the conflict diagnostics.  (The `setdefault` calls are identities
here because `Doc` always carries all three fields.) -/
def mergeNE (base : Doc) (rest : List Doc) : Doc × List String :=
  mergeList base [] rest

/-- Whole-list entry point: the empty list raises `ValueError`. -/
def merge_json_templates (docs : List Doc) : Option (Doc × List String) :=
  match docs with
  | [] => none
  | d :: rest => some (mergeNE d rest)

/-- Reference fold for one address: the value the merged document holds at
`addr` is obtained by running `select_cell` over the documents that list
`addr`, starting from the base document's own entry. -/
def cellResolve (addr : String) : Option CellInfo → List Doc → Option CellInfo
  | acc, [] => acc
  | acc, d :: rest =>
    cellResolve addr
      (match dictGet d.cells addr with
       | none => acc
       | some i => some (select_cell acc i addr).1) rest

/-! ### `excel_to_json.guess_key` and the cell grid -/

/-- `YELLOW = 'FFFFFF00'`, the highlight-fill sentinel. -/
def YELLOW : String := "FFFFFF00"

/-- One cell of the grid produced by `read_workbook`:
`(value, fill color, formula)`. -/
structure Cell3 : Type where
  v : String
  color : Option String := none
  f : Option String := none
deriving DecidableEq

/-- The addressable grid: address string → cell triple. -/
abbrev Grid : Type := Dict Cell3

/-- The `while r > 0` upward scan of `guess_key`: starting at row `r`,
walk up the column, skipping absent cells and cells that are empty or
highlight-filled; return the first qualifying value, else `""`. -/
def upScan (cells : Grid) (col : String) : Nat → String
  | 0 => ""
  | r + 1 =>
    match dictGet cells (col ++ toString (r + 1)) with
    | some c => if c.color ≠ some YELLOW ∧ c.v ≠ "" then c.v else upScan cells col r
    | none => upScan cells col r

/-- `guess_key` after its address split (`col` letters, `row` number).
The left-cell check runs only for a single-letter column strictly greater
than `'A'` (`len(col) == 1 and col > 'A'`); otherwise the function goes
straight to the upward scan. -/
def guessKeyParsed (colChars : List Char) (row : Nat) (cells : Grid) : String :=
  let col : String := ⟨colChars⟩
  match colChars with
  | [c] =>
    if 'A' < c then
      match dictGet cells (⟨[Char.ofNat (c.toNat - 1)]⟩ ++ toString row) with
      | some left =>
        if left.color ≠ some YELLOW ∧ left.v ≠ "" then left.v
        else upScan cells col (row - 1)
      | none => upScan cells col (row - 1)
    else upScan cells col (row - 1)
  | _ => upScan cells col (row - 1)

/-- `guess_key(address, cells)`: split the address into its letters and
its digits, then resolve. -/
def guess_key (address : String) (cells : Grid) : String :=
  guessKeyParsed (address.toList.filter Char.isAlpha)
    (digitsToNat (address.toList.filter Char.isDigit)) cells

/-- Whether the grid cell at `addr` qualifies as a label source: present,
not highlight-filled, non-empty. -/
def qualifies (cells : Grid) (addr : String) : Bool :=
  match dictGet cells addr with
  | some c => c.color ≠ some YELLOW ∧ c.v ≠ ""
  | none => false

def cellTextAt (cells : Grid) (addr : String) : String :=
  match dictGet cells addr with
  | some c => c.v
  | none => ""

/-- Rows `r, r-1, ..., 1`. -/
def descRows : Nat → List Nat
  | 0 => []
  | r + 1 => (r + 1) :: descRows r

/-- Spec-style label resolver, following the amended claim: the candidate
cells are the immediate left neighbour — only when the column is a single
letter beyond `'A'` — followed by the same-column cells from `row - 1` down
to row `1`; the label is the first qualifying candidate's value, else the
empty string. -/
def labelSpec (colChars : List Char) (row : Nat) (cells : Grid) : String :=
  let col : String := ⟨colChars⟩
  let leftCand : List String :=
    match colChars with
    | [c] => if 'A' < c then [⟨[Char.ofNat (c.toNat - 1)]⟩ ++ toString row] else []
    | _ => []
  let cands := leftCand ++ (descRows (row - 1)).map (fun r => col ++ toString r)
  match cands.find? (qualifies cells) with
  | some addr => cellTextAt cells addr
  | none => ""

/-! ### `excel_to_json.read_workbook` -/

/-- The style part (`xl/styles.xml`) after XML parsing: the fill list's
foreground colors and the `cellXfs` fill ids. -/
structure Styles : Type where
  fills : List (Option String)
  cellXfs : List Nat

/-- One `<c>` element of the worksheet: address, optional type, value,
formula and style-index attributes. -/
structure SheetCell : Type where
  r : String
  t : Option String := none
  v : Option String := none
  f : Option String := none
  s : Option Nat := none

/-- The zip package with its three internal parts, each already taken
through XML parsing; `none` models an absent part (whose `z.read` raises a
`KeyError` naming it). -/
structure XPackage : Type where
  sharedStrings : Option (List String) := none
  styles : Option Styles := none
  sheet1 : Option (List SheetCell) := none

/-- Resolve a cell's value: shared-string cells (`t="s"`) index the shared
table — an out-of-range index raises (`none` start included: the table is
`[]` when the part is absent).  Cells without `<v>` read as `""`. -/
def cellValue (shared : List String) (c : SheetCell) : Except String String :=
  match c.v with
  | none => .ok ""
  | some vtext =>
    if c.t = some "s" then
      match pyParseInt vtext with
      | none => .error "invalid shared string index"
      | some i =>
        match shared.get? i.toNat with
        | some txt => .ok txt
        | none => .error "xl/sharedStrings.xml index out of range"
    else .ok vtext

/-- Resolve a cell's fill color through `fill_colors[xfs[int(s)]]`;
out-of-range indices raise. -/
def cellColor (st : Styles) (c : SheetCell) : Except String (Option String) :=
  match c.s with
  | none => .ok none
  | some si =>
    match st.cellXfs.get? si with
    | none => .error "cellXfs index out of range"
    | some fid =>
      match st.fills.get? fid with
      | none => .error "fills index out of range"
      | some colOpt => .ok colOpt

def readCells (shared : List String) (st : Styles) :
    List SheetCell → Grid → Except String Grid
  | [], m => .ok m
  | c :: rest, m =>
    match cellValue shared c with
    | .error e => .error e
    | .ok val =>
      match cellColor st c with
      | .error e => .error e
      | .ok color => readCells shared st rest (dictSet m c.r ⟨val, color, c.f⟩)

/-- `read_workbook(path)` on the unpacked package: shared strings are
optional (`[]` when absent); a missing style table or worksheet part fails
with an error naming that part. -/
def read_workbook (z : XPackage) : Except String Grid :=
  let shared := (z.sharedStrings).getD []
  match z.styles with
  | none => .error "xl/styles.xml"
  | some st =>
    match z.sheet1 with
    | none => .error "xl/worksheets/sheet1.xml"
    | some cs => readCells shared st cs []

def exceptOk {ε α : Type} : Except ε α → Bool
  | .ok _ => true
  | .error _ => false

/-- A sheet cell that never consults the shared-string table: either it
has no `<v>` or it is not typed `t="s"`. -/
def noSharedRefB (c : SheetCell) : Bool :=
  c.v.isNone || !(c.t == some "s")

/-- The cell's style index (when present) is within `cellXfs`, and the
fill id it names is within the fill list. -/
def styleIdxOkB (st : Styles) (c : SheetCell) : Bool :=
  match c.s with
  | none => true
  | some si =>
    match st.cellXfs.get? si with
    | none => false
    | some fid => decide (fid < st.fills.length)

/-! ### `advanced_excel_to_json.parse_table` -/

/-- `COLUMNS = [chr(65 + i) for i in range(12)]`, columns A through L. -/
def COLUMNS : List String :=
  ["A", "B", "C", "D", "E", "F", "G", "H", "I", "J", "K", "L"]

/-- `HEADER_MAP`: header label → canonical field (`none` value = mapped to
Python `None`, i.e. the column is dropped). -/
def HEADER_MAP : Dict (Option String) :=
  [("产品编号", some "产品编号"), ("型号", some "产品编号"),
   ("客号", some "产品编号"), ("产品图片", some "产品图片"),
   ("图片", some "产品图片"), ("商品名称", some "描述"),
   ("名称", some "描述"), ("规格", some "描述"), ("描述", some "描述"),
   ("数量", some "数量/个"), ("数量/个", some "数量/个"),
   ("单价", some "单价"), ("单价/个", some "单价"), ("金额", none),
   ("包装方式", some "包装方式"), ("备注", some "备注")]

/-- `str(cells.get(f"{col}{r}", ("", None, None))[0]).strip()`. -/
def getCellText (cells : Grid) (col : String) (r : Nat) : String :=
  match dictGet cells (col ++ toString r) with
  | some c => pyStrip c.v
  | none => ""

/-- The `header` dict built from the header row: scanned column →
canonical field, for labels present in `HEADER_MAP`. -/
def buildHeader (cells : Grid) (headerRow : Nat) : Dict (Option String) :=
  COLUMNS.foldl
    (fun h col =>
      match dictGet HEADER_MAP (getCellText cells col headerRow) with
      | some v => dictSet h col v
      | none => h) []

/-- First break test: the row is entirely empty across columns A–L. -/
def rowAllEmpty (cells : Grid) (r : Nat) : Bool :=
  COLUMNS.all (fun col => getCellText cells col r == "")

/-- Second break test: the first cell starts with `"TOTAL"` or equals
`"总计"`. -/
def firstCellMarker (cells : Grid) (r : Nat) : Bool :=
  strStartsWith (getCellText cells "A" r) "TOTAL" ||
    getCellText cells "A" r == "总计"

/-- Third break test: every recognized header column is empty in the row. -/
def headerColsEmpty (header : Dict (Option String)) (cells : Grid)
    (r : Nat) : Bool :=
  header.all (fun e => getCellText cells e.1 r == "")

/-- Any of the three `break` conditions of the data-row loop. -/
def terminalRow (cells : Grid) (header : Dict (Option String)) (r : Nat) : Bool :=
  rowAllEmpty cells r || firstCellMarker cells r || headerColsEmpty header cells r

/-- One product item built from a data row: each recognized column's text
goes through `convert_number` (a `None` canonical field is skipped), then
the accessory-name lookup (`ACCESSORY_MAP`, reference data loaded from
`docs/accessory_mapping.json` and passed here as `accName`) may add
`产品名称`. -/
def mkItem (cells : Grid) (accName : String → Option String)
    (header : Dict (Option String)) (r : Nat) : Prod' :=
  let item : Prod' := header.foldl
    (fun it e =>
      match e.2 with
      | none => it
      | some k => dictSet it k (convert_number (getCellText cells e.1 r))) []
  match dictGet item "产品编号" with
  | some (.vs s) =>
    if s ≠ "" then
      match accName s with
      | some nm => dictSet item "产品名称" (.vs nm)
      | none => item
    else item
  | _ => item

/-- Largest row number appearing among the grid's addresses (`maxRow`
bounds the terminating fuel: every row beyond it is entirely empty). -/
def rowOfAddr (addr : String) : Nat :=
  digitsToNat (((addr.toList.dropWhile (fun c => ¬ c.isDigit)).takeWhile
    Char.isDigit))

def maxRow (cells : Grid) : Nat :=
  cells.foldl (fun m e => max m (rowOfAddr e.1)) 0

/-- The `while True` data-row loop, rendered with fuel.  The loop always
stops by row `maxRow cells + 1` (such a row is entirely empty), so the fuel
chosen in `parse_table` is never exhausted on the grids the theorems
consider. -/
def parseTableAux (cells : Grid) (accName : String → Option String)
    (header : Dict (Option String)) :
    Nat → Nat → List Prod' → List Prod' × Nat
  | 0, row, acc => (acc.reverse, row - 1)
  | fuel + 1, row, acc =>
    if terminalRow cells header row then (acc.reverse, row - 1)
    else
      parseTableAux cells accName header fuel (row + 1)
        (mkItem cells accName header row :: acc)

/-- `parse_table(cells, header_row)`: returns the ordered product list and
the index of the last data row. -/
def parse_table (cells : Grid) (accName : String → Option String)
    (headerRow : Nat) : List Prod' × Nat :=
  parseTableAux cells accName (buildHeader cells headerRow)
    (maxRow cells + 2) (headerRow + 1) []

/-! ### `json_PO_excel`: the Order Writer -/

/-- The worksheet as a value map `(row, column) → value`; formatting
attributes (fonts, borders, fills) are not value-relevant and are carried
by the template unchanged, so they are not modelled. -/
abbrev Ws : Type := Nat × Nat → Option Val

def START_ROW : Nat := 7
def PLACEHOLDER_ROWS : Nat := 3
def BUYER_ROW : Nat := 69

def wsSet (ws : Ws) (r c : Nat) (v : Val) : Ws :=
  fun p => if p = (r, c) then some v else ws p

/-- `ws.insert_rows(pos, k)`: rows at or below `pos` shift down by `k`;
the inserted rows are blank.  (`_clone_row` then copies formatting only,
which leaves cell values untouched.) -/
def insertRowsAt (ws : Ws) (pos k : Nat) : Ws :=
  fun p =>
    if p.1 < pos then ws p
    else if p.1 < pos + k then none
    else ws (p.1 - k, p.2)

/-- Column number of a spreadsheet column letter string (`A` = 1, `AA` = 27). -/
def colNum (letters : String) : Nat :=
  letters.toList.foldl (fun n c => n * 26 + (c.toNat - 64)) 0

/-- `"B3"`-style address to `(row, column)`. -/
def addrRC (addr : String) : Nat × Nat :=
  (digitsToNat (addr.toList.filter Char.isDigit),
   colNum ⟨addr.toList.filter Char.isAlpha⟩)

/-- `str(template_val).strip() if template_val is not None else ""`. -/
def templateText (ws : Ws) (addr : String) : String :=
  match ws (addrRC addr) with
  | some v => pyStrip v.pyStr
  | none => ""

/-- The mismatch list `verify_cells` accumulates: one
`(address, template text, expected key)` per labeled cell whose template
text differs from the recorded label.  Cells without a recorded `key` are
skipped. -/
def mismatchesOf (ws : Ws) (cells : Dict CellInfo) :
    List (String × String × String) :=
  cells.filterMap (fun e =>
    match e.2.key with
    | none => none
    | some expected =>
      let t := templateText ws e.1
      if t ≠ expected then some (e.1, t, expected) else none)

/-- `verify_cells(ws, cells)`: raises one `ValueError` listing every
mismatch; reads only, never writes. -/
def verify_cells (ws : Ws) (cells : Dict CellInfo) :
    Except (List (String × String × String)) Unit :=
  match mismatchesOf ws cells with
  | [] => .ok ()
  | ms => .error ms

/-- `fill_cells(ws, cells)`: write each cell's value over the template. -/
def fill_cells (ws : Ws) (cells : Dict CellInfo) : Ws :=
  cells.foldl (fun w e => let rc := addrRC e.1; wsSet w rc.1 rc.2 e.2.value) ws

def sumFormula (col : String) (a b : Nat) : String :=
  "=SUM(" ++ col ++ toString a ++ ":" ++ col ++ toString b ++ ")"

/-- Field access `item.get(k, "")` on a product object. -/
def fieldD (item : Prod') (k : String) : Val :=
  dictGetD item k (.vs "")

/-- `item.get(k, "").strip()`'s receiver: the raw string for a string (or
absent, via the `""` default) field; `none` models the `AttributeError`
Python raises when `.strip()` is called on a non-string value (which
`parse_table`'s numeric coercion really produces). -/
def strFieldE (item : Prod') (k : String) : Option String :=
  match dictGet item k with
  | some (.vs s) => some s
  | some _ => none
  | none => some ""

/-- The `产品名称` and `描述` fields of a product are strings or absent,
so writing its row raises no `AttributeError`. -/
def rowFieldsOkB (item : Prod') : Bool :=
  (strFieldE item "产品名称").isSome && (strFieldE item "描述").isSome

/-- Write one product row (columns 1–7).  `attachOk` is the oracle for
image embedding: the cell under the image is written `""`, and on an
attach failure the raw image reference is written as text instead.  An
`AttributeError` from `.strip()` on a non-string `产品名称`/`描述`
(`.error`) aborts the row with columns 1–2 already written, carrying the
sheet state at the raise. -/
def writeProductRow (ws : Ws) (r : Nat) (item : Prod')
    (attachOk : Val → Bool) : Except Ws Ws :=
  let ws := wsSet ws r 1 (fieldD item "产品编号")
  let ws := wsSet ws r 2 (.vs "")
  let ws :=
    match dictGet item "产品图片" with
    | some img =>
      if img.truthy ∧ ¬ attachOk img then wsSet ws r 2 img else ws
    | none => ws
  match strFieldE item "产品名称" with
  | none => .error ws
  | some rawName =>
    let name := pyStrip rawName
    match strFieldE item "描述" with
    | none => .error ws
    | some rawDesc =>
      let desc := pyStrip rawDesc
      let desc :=
        if name ≠ "" then (if desc ≠ "" then name ++ " " ++ desc else name)
        else desc
      let ws := wsSet ws r 3 (.vs desc)
      let ws := wsSet ws r 4 (fieldD item "数量/个")
      let ws := wsSet ws r 5 (fieldD item "单价")
      let ws := wsSet ws r 6 (.vs ("=E" ++ toString r ++ "*D" ++ toString r))
      .ok (wsSet ws r 7 (fieldD item "包装方式"))

/-- The `for idx in range(row_count)` loop: an `AttributeError` in any row
propagates with the sheet state at the raise. -/
def writeRows (products : List Prod') (attachOk : Val → Bool) :
    List Nat → Ws → Except Ws Ws
  | [], ws => .ok ws
  | idx :: rest, ws =>
    match writeProductRow ws (START_ROW + idx) (products.getD idx [])
        attachOk with
    | .error e => .error e
    | .ok ws' => writeRows products attachOk rest ws'

/-- `insert_products(ws, products)`: expand beyond the placeholder rows if
needed, populate the product rows (placeholder rows beyond the product
list are filled from the empty item), then write the two SUM formulas on
the row after the populated block.  Returns the updated sheet and `extra`;
`.error` is a propagated `AttributeError` (totals never written). -/
def insert_products (ws : Ws) (products : List Prod')
    (attachOk : Val → Bool) : Except Ws (Ws × Nat) :=
  let templateRow := START_ROW + PLACEHOLDER_ROWS - 1
  let extra := products.length - PLACEHOLDER_ROWS
  let ws0 := if extra ≠ 0 then insertRowsAt ws (templateRow + 1) extra else ws
  let rowCount := max products.length PLACEHOLDER_ROWS
  match writeRows products attachOk (List.range rowCount) ws0 with
  | .error e => .error e
  | .ok ws1 =>
    let totalRow := START_ROW + rowCount
    .ok (wsSet
      (wsSet ws1 totalRow 4 (.vs (sumFormula "D" START_ROW (totalRow - 1))))
      totalRow 6 (.vs (sumFormula "F" START_ROW (totalRow - 1))), extra)

/-- The sheet state an `insert_products` call leaves at a cell, whether it
returned or raised. -/
def resultCell (e : Except Ws (Ws × Nat)) (p : Nat × Nat) : Option Val :=
  match e with
  | .ok pr => pr.1 p
  | .error w => w p

/-- An error `create_order_workbook` can surface: the aggregated
pre-mutation `LabelMismatch` (`ValueError`), or the `AttributeError`
propagated out of `insert_products`. -/
inductive WriterErr : Type
  | labelMismatch (ms : List (String × String × String))
  | attributeError
deriving DecidableEq

/-- `create_order_workbook(data, template, output)`: verify labels first;
on any mismatch the single aggregated error is raised before any cell is
written, so the returned sheet is the input template unchanged.  On
success: fill cells, insert products (whose `AttributeError` propagates
with the sheet state at the raise), then write the offset footer. -/
def create_order_workbook (ws : Ws) (data : Doc) (attachOk : Val → Bool) :
    Ws × Option WriterErr :=
  match verify_cells ws data.cells with
  | .error ms => (ws, some (.labelMismatch ms))
  | .ok _ =>
    let ws := fill_cells ws data.cells
    match insert_products ws data.products attachOk with
    | .error e => (e, some .attributeError)
    | .ok p =>
      let ws := p.1
      let offset := p.2
      let ws :=
        if data.footer ≠ [] then
          let ws :=
            match dictGet data.footer "buyer" with
            | some v => wsSet ws (BUYER_ROW + offset) 2 v
            | none => ws
          match dictGet data.footer "supplier" with
          | some v => wsSet ws (BUYER_ROW + offset) 5 v
          | none => ws
        else ws
      (ws, none)

/-- No conflicting non-empty values between two documents: whenever both
list the same address with truthy values, the values agree. -/
def noConflict (X Y : Doc) : Prop :=
  ∀ p ∈ X.cells, ∀ q ∈ Y.cells,
    p.1 = q.1 → p.2.value.truthy → q.2.value.truthy → p.2.value = q.2.value

instance (X Y : Doc) : Decidable (noConflict X Y) := by
  unfold noConflict
  infer_instance

/-! ## Helper lemmas -/

theorem dictGet_dictSet_self {α : Type} (m : Dict α) (k : String) (v : α) :
    dictGet (dictSet m k v) k = some v := by
  induction m with
  | nil => simp [dictGet, dictSet]
  | cons e rest ih =>
    by_cases h : e.1 = k
    · simp [dictGet, dictSet, h]
    · simp [dictGet, dictSet, h, ih]

theorem dictGet_dictSet_ne {α : Type} (m : Dict α) {k k' : String} (v : α)
    (h : k' ≠ k) : dictGet (dictSet m k v) k' = dictGet m k' := by
  have h' : ¬ k = k' := fun hh => h hh.symm
  induction m with
  | nil => simp [dictGet, dictSet, h']
  | cons e rest ih =>
    by_cases he : e.1 = k
    · subst he
      simp [dictGet, dictSet, h']
    · simp [dictGet, dictSet, he, ih]

theorem dictKeys_cons {α : Type} (e : String × α) (rest : Dict α) :
    dictKeys (e :: rest) = e.1 :: dictKeys rest := rfl

theorem dictGet_eq_none_iff {α : Type} (m : Dict α) (k : String) :
    dictGet m k = none ↔ k ∉ dictKeys m := by
  induction m with
  | nil => simp [dictGet, dictKeys]
  | cons e rest ih =>
    rw [dictKeys_cons, List.mem_cons]
    by_cases he : e.1 = k
    · simp [dictGet, he]
    · have hne : ¬ k = e.1 := fun hh => he hh.symm
      simp [dictGet, he, ih, hne]

theorem dictGet_mem {α : Type} {m : Dict α} {k : String} {v : α}
    (h : dictGet m k = some v) : (k, v) ∈ m := by
  induction m with
  | nil => simp [dictGet] at h
  | cons e rest ih =>
    by_cases he : e.1 = k
    · simp [dictGet, he] at h
      subst he
      rw [← h]
      simp
    · simp [dictGet, he] at h
      exact List.mem_cons_of_mem _ (ih h)

theorem dictKeys_dictSet_mem {α : Type} (m : Dict α) {k : String} (v : α)
    (h : k ∈ dictKeys m) : dictKeys (dictSet m k v) = dictKeys m := by
  induction m with
  | nil => simp [dictKeys] at h
  | cons e rest ih =>
    by_cases he : e.1 = k
    · simp [dictSet, dictKeys, he]
    · rw [dictKeys_cons, List.mem_cons] at h
      have hne : ¬ k = e.1 := fun hh => he hh.symm
      rcases h with h | h
      · exact absurd h hne
      · have h1 : dictSet (e :: rest) k v = e :: dictSet rest k v := by
          simp [dictSet, he]
        rw [h1, dictKeys_cons, dictKeys_cons, ih h]

theorem dictKeys_dictSet_not_mem {α : Type} (m : Dict α) {k : String} (v : α)
    (h : k ∉ dictKeys m) : dictKeys (dictSet m k v) = dictKeys m ++ [k] := by
  induction m with
  | nil => simp [dictSet, dictKeys]
  | cons e rest ih =>
    rw [dictKeys_cons, List.mem_cons] at h
    push_neg at h
    have he : ¬ e.1 = k := fun hh => h.1 hh.symm
    have h1 : dictSet (e :: rest) k v = e :: dictSet rest k v := by
      simp [dictSet, he]
    rw [h1, dictKeys_cons, dictKeys_cons, ih h.2]
    rfl

theorem nodup_dictSet {α : Type} (m : Dict α) (k : String) (v : α)
    (h : (dictKeys m).Nodup) : (dictKeys (dictSet m k v)).Nodup := by
  by_cases hk : k ∈ dictKeys m
  · rw [dictKeys_dictSet_mem m v hk]; exact h
  · rw [dictKeys_dictSet_not_mem m v hk]
    simp [List.nodup_append, h, hk]

/-! ## C8: `convert_number` is total -/

/-- C8: numeric coercion is total: `convert_number` returns the empty
string for blank input, an integer or a decimal number when the string
parses as one, and otherwise falls back to the raw string unchanged — it
never raises (every input maps to one of these results). -/
theorem convert_number_total (val : String) :
    (pyStrip val = "" → convert_number val = .vs "") ∧
    (¬ pyStrip val = "" → ¬ strContainsChar val '.' →
      ∀ n, pyParseInt val = some n → convert_number val = .vi n) ∧
    (¬ pyStrip val = "" → strContainsChar val '.' →
      ∀ q, pyParseFloat val = some q → convert_number val = .vf q) ∧
    (¬ pyStrip val = "" → ¬ strContainsChar val '.' →
      pyParseInt val = none → convert_number val = .vs val) ∧
    (¬ pyStrip val = "" → strContainsChar val '.' →
      pyParseFloat val = none → convert_number val = .vs val) ∧
    (convert_number val = .vs "" ∨ (∃ n, convert_number val = .vi n) ∨
      (∃ q, convert_number val = .vf q) ∨ convert_number val = .vs val) := by
  refine ⟨?_, ?_, ?_, ?_, ?_, ?_⟩
  · intro h
    simp [convert_number, h]
  · intro h hd n hp
    simp [convert_number, h, hd, hp]
  · intro h hd q hp
    simp [convert_number, h, hd, hp]
  · intro h hd hp
    simp [convert_number, h, hd, hp]
  · intro h hd hp
    simp [convert_number, h, hd, hp]
  · unfold convert_number
    by_cases h1 : pyStrip val = ""
    · simp [h1]
    · by_cases h2 : strContainsChar val '.'
      · cases hf : pyParseFloat val with
        | none => simp [h1, h2, hf]
        | some q => simp [h1, h2, hf]
      · cases hi : pyParseInt val with
        | none => simp [h1, h2, hi]
        | some n => simp [h1, h2, hi]

theorem convert_number_total_witness :
    convert_number "  " = .vs "" ∧ convert_number "12" = .vi 12 ∧
    convert_number "abc" = .vs "abc" ∧
    convert_number "1.2.3" = .vs "1.2.3" := by
  refine ⟨(convert_number_total "  ").1 (by decide), ?_, ?_, ?_⟩
  · exact (convert_number_total "12").2.1 (by decide) (by decide) 12 (by decide)
  · exact (convert_number_total "abc").2.2.2.1 (by decide) (by decide)
      (by decide)
  · exact (convert_number_total "1.2.3").2.2.2.2.1 (by decide) (by decide)
      (by decide)

/-! ## C10: unparseable ratio strings fall back to 1/1 -/

/-- C10: an accessory entry whose `ratio_main` or `ratio_accessory` is a
string that Python `int` rejects is silently given ratios `(1, 1)` by the
`except ValueError` arm, so its contribution is the full requested
quantity (`qty * 1 // 1`); the entry is neither skipped nor an error. -/
theorem ratio_parse_fallback (a : Accessory) (qty : Int)
    (h : (∃ str, a.ratio_main = some (.s str) ∧ pyParseInt str = none) ∨
         (∃ str, a.ratio_accessory = some (.s str) ∧ pyParseInt str = none)) :
    effRatios a = (1, 1) ∧
    ∀ s r, a.sku = some s → s ≠ "" →
      accStep qty r a = some (updF r s (r s + qty)) := by
  have he : effRatios a = (1, 1) := by
    rcases h with ⟨str, hm, hp⟩ | ⟨str, hm, hp⟩
    · unfold effRatios
      rw [hm]
      simp [pyIntOfRV, hp]
    · unfold effRatios
      rw [hm]
      cases hx : pyIntOfRV a.ratio_main <;> simp [pyIntOfRV, hp]
  refine ⟨he, ?_⟩
  intro s r hsku hne
  unfold accStep
  rw [he]
  simp [hsku, hne]

theorem ratio_parse_fallback_witness :
    effRatios ⟨some "SKU-X", some (.s "N/A"), some (.i 3)⟩ = (1, 1) ∧
    accStep 800 (fun _ => 0) ⟨some "SKU-X", some (.s "N/A"), some (.i 3)⟩ =
      some (updF (fun _ => 0) "SKU-X" (0 + 800)) := by
  have h := ratio_parse_fallback ⟨some "SKU-X", some (.s "N/A"), some (.i 3)⟩
    800 (Or.inl ⟨"N/A", rfl, by decide⟩)
  exact ⟨h.1, h.2 "SKU-X" (fun _ => 0) rfl (by decide)⟩

/-! ## C1: `_compute_all_items` totals -/

theorem accStep_eq (qty : Int) (r : String → Int) (a : Accessory)
    (hm : (effRatios a).1 ≠ 0) :
    accStep qty r a = some (fun s => r s +
      if a.sku = some s ∧ s ≠ "" then
        Int.fdiv (qty * (effRatios a).2) (effRatios a).1
      else 0) := by
  unfold accStep
  rw [if_neg hm]
  cases hsku : a.sku with
  | none =>
    refine congrArg some (funext fun s => ?_)
    simp [hsku]
  | some s0 =>
    by_cases h0 : s0 = ""
    · subst h0
      simp only [ne_eq, not_true_eq_false, if_false, ite_false]
      refine congrArg some (funext fun s => ?_)
      rw [if_neg, add_zero]
      rintro ⟨hc, hs⟩
      exact hs (Option.some_injective _ hc).symm
    · simp only [ne_eq, h0, not_false_iff, if_true, ite_true]
      refine congrArg some (funext fun s => ?_)
      unfold updF
      by_cases hss : s = s0
      · subst hss
        rw [if_pos rfl, if_pos ⟨rfl, h0⟩]
      · rw [if_neg hss, if_neg, add_zero]
        rintro ⟨hc, hs⟩
        exact hss (Option.some_injective _ hc).symm

theorem foldAccs_eq (qty : Int) (accs : List Accessory) (r : String → Int)
    (h : ∀ a ∈ accs, (effRatios a).1 ≠ 0) :
    foldAccs qty accs r = some (fun s => r s + accContrib qty accs s) := by
  induction accs generalizing r with
  | nil =>
    simp [foldAccs, accContrib]
  | cons a rest ih =>
    have hm : (effRatios a).1 ≠ 0 := h a (by simp)
    have hrest : ∀ b ∈ rest, (effRatios b).1 ≠ 0 :=
      fun b hb => h b (List.mem_cons_of_mem _ hb)
    have hstep := accStep_eq qty r a hm
    have hred : foldAccs qty (a :: rest) r =
        foldAccs qty rest (fun s => r s +
          if a.sku = some s ∧ s ≠ "" then
            Int.fdiv (qty * (effRatios a).2) (effRatios a).1
          else 0) := by
      conv_lhs => rw [foldAccs]
      rw [hstep]
    rw [hred, ih _ hrest]
    refine congrArg some (funext fun s => ?_)
    have hcons : accContrib qty (a :: rest) s =
        (if a.sku = some s ∧ s ≠ "" then
          Int.fdiv (qty * (effRatios a).2) (effRatios a).1
        else 0) + accContrib qty rest s := by
      simp [accContrib]
    rw [hcons]
    ring

theorem foldReqs_eq (mp : Dict (List Accessory)) (requests : List (String × Int))
    (r : String → Int)
    (h : ∀ p ∈ requests, ∀ a ∈ dictGetD mp p.1 [], (effRatios a).1 ≠ 0) :
    foldReqs mp requests r =
      some (fun s => r s + reqSum requests s + accSum requests mp s) := by
  induction requests generalizing r with
  | nil =>
    simp [foldReqs, reqSum, accSum]
  | cons p rest ih =>
    have hp : ∀ a ∈ dictGetD mp p.1 [], (effRatios a).1 ≠ 0 := h p (by simp)
    have hrest : ∀ q ∈ rest, ∀ a ∈ dictGetD mp q.1 [], (effRatios a).1 ≠ 0 :=
      fun q hq => h q (List.mem_cons_of_mem _ hq)
    have hstep := foldAccs_eq p.2 (dictGetD mp p.1 [])
      (updF r p.1 (r p.1 + p.2)) hp
    have hred : foldReqs mp (p :: rest) r =
        foldReqs mp rest (fun s => updF r p.1 (r p.1 + p.2) s +
          accContrib p.2 (dictGetD mp p.1 []) s) := by
      conv_lhs => rw [foldReqs]
      rw [hstep]
    rw [hred, ih _ hrest]
    refine congrArg some (funext fun s => ?_)
    have hreq : reqSum (p :: rest) s =
        (if p.1 = s then p.2 else 0) + reqSum rest s := by
      simp [reqSum]
    have hacc : accSum (p :: rest) mp s =
        accContrib p.2 (dictGetD mp p.1 []) s + accSum rest mp s := by
      simp [accSum]
    rw [hreq, hacc]
    unfold updF
    by_cases hss : s = p.1
    · rw [if_pos hss, if_pos hss.symm, hss]
      ring
    · rw [if_neg hss, if_neg (fun hh => hss hh.symm)]
      ring

theorem reqSum_eq_zero (requests : List (String × Int)) (s : String)
    (h : ∀ p ∈ requests, p.1 ≠ s) : reqSum requests s = 0 := by
  induction requests with
  | nil => simp [reqSum]
  | cons p rest ih =>
    have hp : p.1 ≠ s := h p (by simp)
    have := ih (fun q hq => h q (List.mem_cons_of_mem _ hq))
    simp [reqSum] at this ⊢
    simp [hp, this]

theorem reqSum_of_nodup (requests : List (String × Int))
    (hk : (requests.map (·.1)).Nodup) {p : String × Int}
    (hp : p ∈ requests) : reqSum requests p.1 = p.2 := by
  induction requests with
  | nil => simp at hp
  | cons q rest ih =>
    rcases List.mem_cons.mp hp with h | h
    · subst h
      have hnot : ∀ e ∈ rest, e.1 ≠ p.1 := by
        intro e he hc
        have : p.1 ∈ rest.map (·.1) := by
          rw [← hc]
          exact List.mem_map_of_mem _ he
        exact (List.nodup_cons.mp hk).1 this
      simp [reqSum]
      exact reqSum_eq_zero rest p.1 hnot
    · have hq : q.1 ≠ p.1 := by
        intro hc
        have hmem : p.1 ∈ rest.map (·.1) := List.mem_map_of_mem _ h
        rw [← hc] at hmem
        exact (List.nodup_cons.mp hk).1 hmem
      have := ih (List.nodup_cons.mp hk).2 h
      simp [reqSum] at this ⊢
      simp [hq, this]

/-- C1: for requests with non-negative quantities and accessory entries
with effective ratios `main ≥ 1`, `accessory ≥ 0`, `_compute_all_items`
succeeds and returns totals where each SKU gets its requested quantity
plus `Σ floor(qty·accessory/main)` over the requested SKUs listing it; in
particular a pure accessory SKU's total is exactly that sum, every
requested SKU receives its requested quantity, and all totals are ≥ 0. -/
theorem compute_all_items_correct (requests : List (String × Int))
    (mp : Dict (List Accessory))
    (hq : ∀ p ∈ requests, 0 ≤ p.2)
    (hkeys : (requests.map (·.1)).Nodup)
    (hm : ∀ e ∈ mp, ∀ a ∈ e.2, 1 ≤ (effRatios a).1 ∧ 0 ≤ (effRatios a).2) :
    ∃ r, compute_all_items requests mp = some r ∧
      (∀ s, r s = reqSum requests s + accSum requests mp s) ∧
      (∀ s, (∀ p ∈ requests, p.1 ≠ s) → r s = accSum requests mp s) ∧
      (∀ p ∈ requests, r p.1 = p.2 + accSum requests mp p.1) ∧
      (∀ s, 0 ≤ accSum requests mp s) ∧
      (∀ s, 0 ≤ r s) := by
  have hma : ∀ (k : String), ∀ a ∈ dictGetD mp k [],
      1 ≤ (effRatios a).1 ∧ 0 ≤ (effRatios a).2 := by
    intro k a ha
    unfold dictGetD at ha
    cases hg : dictGet mp k with
    | none => rw [hg] at ha; simp at ha
    | some l =>
      rw [hg] at ha
      exact hm (k, l) (dictGet_mem hg) a ha
  have hne : ∀ p ∈ requests, ∀ a ∈ dictGetD mp p.1 [], (effRatios a).1 ≠ 0 := by
    intro p _ a ha
    have := (hma p.1 a ha).1
    omega
  have hfold := foldReqs_eq mp requests (fun _ => 0) hne
  have hreqnn : ∀ s, 0 ≤ reqSum requests s := by
    intro s
    apply List.sum_nonneg
    intro x hx
    rcases List.mem_map.mp hx with ⟨p, hpmem, rfl⟩
    by_cases hc : p.1 = s
    · rw [if_pos hc]; exact hq p hpmem
    · rw [if_neg hc]
  have haccnn : ∀ s, 0 ≤ accSum requests mp s := by
    intro s
    apply List.sum_nonneg
    intro x hx
    rcases List.mem_map.mp hx with ⟨p, hpmem, rfl⟩
    apply List.sum_nonneg
    intro y hy
    rcases List.mem_map.mp hy with ⟨a, hamem, rfl⟩
    by_cases hc : a.sku = some s ∧ s ≠ ""
    · rw [if_pos hc]
      exact Int.fdiv_nonneg (mul_nonneg (hq p hpmem) (hma p.1 a hamem).2)
        (le_trans zero_le_one (hma p.1 a hamem).1)
    · rw [if_neg hc]
  refine ⟨fun s => reqSum requests s + accSum requests mp s, ?_, fun s => rfl,
    ?_, ?_, haccnn, ?_⟩
  · unfold compute_all_items
    rw [hfold]
    exact congrArg some (funext fun s => by simp)
  · intro s h
    show reqSum requests s + accSum requests mp s = accSum requests mp s
    rw [reqSum_eq_zero _ _ h, zero_add]
  · intro p hp
    show reqSum requests p.1 + accSum requests mp p.1 =
      p.2 + accSum requests mp p.1
    rw [reqSum_of_nodup requests hkeys hp]
  · intro s
    exact add_nonneg (hreqnn s) (haccnn s)

theorem compute_all_items_correct_witness :
    ∃ r, compute_all_items [("SKU-A", 100)]
        [("SKU-A", [⟨some "SKU-X", some (.i 3), some (.i 1)⟩])] = some r ∧
      (∀ s, r s = reqSum [("SKU-A", 100)] s +
        accSum [("SKU-A", 100)]
          [("SKU-A", [⟨some "SKU-X", some (.i 3), some (.i 1)⟩])] s) ∧
      (∀ s, (∀ p ∈ [("SKU-A", (100 : Int))], p.1 ≠ s) →
        r s = accSum [("SKU-A", 100)]
          [("SKU-A", [⟨some "SKU-X", some (.i 3), some (.i 1)⟩])] s) ∧
      (∀ p ∈ [("SKU-A", (100 : Int))], r p.1 = p.2 +
        accSum [("SKU-A", 100)]
          [("SKU-A", [⟨some "SKU-X", some (.i 3), some (.i 1)⟩])] p.1) ∧
      (∀ s, 0 ≤ accSum [("SKU-A", 100)]
        [("SKU-A", [⟨some "SKU-X", some (.i 3), some (.i 1)⟩])] s) ∧
      (∀ s, 0 ≤ r s) :=
  compute_all_items_correct [("SKU-A", 100)]
    [("SKU-A", [⟨some "SKU-X", some (.i 3), some (.i 1)⟩])]
    (by decide) (by decide) (by decide)

/-- The spec's worked example: requesting 100 of a SKU whose accessory has
ratio `(main=3, accessory=1)` contributes `floor(100/3) = 33` to the
accessory. -/
theorem accessory_example :
    accSum [("SKU-A", 100)]
      [("SKU-A", [⟨some "SKU-X", some (.i 3), some (.i 1)⟩])] "SKU-X" = 33 := by
  decide

/-! ## C3 and C6: the Template Merge Engine -/

theorem mergeCellsFrom_get (nc : List (String × CellInfo))
    (m : Dict CellInfo) (diags : List String)
    (hnd : (nc.map (·.1)).Nodup) (addr : String) :
    dictGet (mergeCellsFrom m diags nc).1 addr =
      match dictGet nc addr with
      | none => dictGet m addr
      | some i => some (select_cell (dictGet m addr) i addr).1 := by
  induction nc generalizing m diags with
  | nil => rfl
  | cons e rest ih =>
    obtain ⟨a, i⟩ := e
    have hrest : (rest.map (·.1)).Nodup := (List.nodup_cons.mp hnd).2
    have hnotin : a ∉ rest.map (·.1) := (List.nodup_cons.mp hnd).1
    rw [mergeCellsFrom]
    rw [ih _ _ hrest]
    by_cases ha : a = addr
    · subst ha
      have hra : dictGet rest a = none := by
        rw [dictGet_eq_none_iff]
        simpa [dictKeys] using hnotin
      rw [hra]
      have : dictGet ((a, i) :: rest) a = some i := by simp [dictGet]
      rw [this]
      exact dictGet_dictSet_self m a _
    · have hcons : dictGet ((a, i) :: rest) addr = dictGet rest addr := by
        simp [dictGet, ha]
      rw [hcons, dictGet_dictSet_ne m _ (fun hh => ha hh.symm)]

theorem mergeCellsFrom_nodup (nc : List (String × CellInfo))
    (m : Dict CellInfo) (diags : List String)
    (h : (dictKeys m).Nodup) :
    (dictKeys (mergeCellsFrom m diags nc).1).Nodup := by
  induction nc generalizing m diags with
  | nil => exact h
  | cons e rest ih =>
    rw [mergeCellsFrom]
    exact ih _ _ (nodup_dictSet _ _ _ h)

theorem mergeList_get (docs : List Doc) (m : Doc) (diags : List String)
    (h : ∀ d ∈ docs, (d.cells.map (·.1)).Nodup) (addr : String) :
    dictGet (mergeList m diags docs).1.cells addr =
      cellResolve addr (dictGet m.cells addr) docs := by
  induction docs generalizing m diags with
  | nil => rfl
  | cons d rest ih =>
    have hd : (d.cells.map (·.1)).Nodup := h d (by simp)
    have hrest : ∀ e ∈ rest, (e.cells.map (·.1)).Nodup :=
      fun e he => h e (List.mem_cons_of_mem _ he)
    rw [mergeList, ih _ _ hrest, cellResolve]
    have hcells : (mergeOne m diags d).1.cells =
        (mergeCellsFrom m.cells diags d.cells).1 := rfl
    rw [hcells, mergeCellsFrom_get d.cells m.cells diags hd addr]

theorem mergeList_nodup (docs : List Doc) (m : Doc) (diags : List String)
    (h : (dictKeys m.cells).Nodup) :
    (dictKeys (mergeList m diags docs).1.cells).Nodup := by
  induction docs generalizing m diags with
  | nil => exact h
  | cons d rest ih =>
    rw [mergeList]
    exact ih _ _ (mergeCellsFrom_nodup _ _ _ h)

theorem select_cell_none (i : CellInfo) (addr : String) :
    select_cell none i addr = (i, []) := rfl

theorem select_cell_falsy (ex i : CellInfo) (addr : String)
    (h : ¬ ex.value.truthy) : select_cell (some ex) i addr = (i, []) := by
  simp only [select_cell]
  rw [if_pos h]

theorem select_cell_truthy_fst (ex i : CellInfo) (addr : String)
    (h : ex.value.truthy) : (select_cell (some ex) i addr).1 = ex := by
  simp only [select_cell]
  rw [if_neg (not_not_intro h)]
  split <;> rfl

theorem select_cell_conflict (ex i : CellInfo) (addr : String)
    (h1 : ex.value.truthy) (h2 : i.value.truthy) (h3 : i.value ≠ ex.value) :
    select_cell (some ex) i addr = (ex, [conflictMsg addr ex.value i.value]) := by
  simp only [select_cell]
  rw [if_neg (not_not_intro h1), if_pos ⟨h2, h3⟩]

/-- C3: merging processes documents left to right; the merge of a
non-empty document list always succeeds (conflicts are never fatal), the
merged value at each address is the left-to-right `select_cell` fold over
the documents listing it, a later cell is adopted exactly when the stored
value is absent or empty, a stored non-empty value is always kept, and a
differing non-empty later value produces the conflict diagnostic naming
both values. -/
theorem merge_first_nonempty_wins (d : Doc) (rest : List Doc)
    (hnd : ∀ doc ∈ rest, (doc.cells.map (·.1)).Nodup) :
    merge_json_templates (d :: rest) = some (mergeNE d rest) ∧
    (∀ addr, dictGet (mergeNE d rest).1.cells addr =
      cellResolve addr (dictGet d.cells addr) rest) ∧
    (∀ i addr, (select_cell none i addr).1 = i) ∧
    (∀ ex i addr, ¬ ex.value.truthy → (select_cell (some ex) i addr).1 = i) ∧
    (∀ ex i addr, ex.value.truthy → (select_cell (some ex) i addr).1 = ex) ∧
    (∀ ex i addr, ex.value.truthy → i.value.truthy → i.value ≠ ex.value →
      (select_cell (some ex) i addr).2 =
        [conflictMsg addr ex.value i.value]) := by
  refine ⟨rfl, ?_, ?_, ?_, ?_, ?_⟩
  · intro addr
    exact mergeList_get rest d [] hnd addr
  · intro i addr
    rfl
  · intro ex i addr h
    rw [select_cell_falsy ex i addr h]
  · intro ex i addr h
    exact select_cell_truthy_fst ex i addr h
  · intro ex i addr h1 h2 h3
    rw [select_cell_conflict ex i addr h1 h2 h3]

theorem merge_first_nonempty_wins_witness :
    dictGet (mergeNE
      ⟨[("B3", ⟨some "供应商", .vs "工厂A"⟩)], [], []⟩
      [⟨[("B3", ⟨some "供应商", .vs "工厂B"⟩),
         ("B5", ⟨some "日期", .vs "2024"⟩)], [], []⟩]).1.cells "B3" =
    cellResolve "B3"
      (dictGet (⟨[("B3", ⟨some "供应商", .vs "工厂A"⟩)], [], []⟩ : Doc).cells
        "B3")
      [⟨[("B3", ⟨some "供应商", .vs "工厂B"⟩),
         ("B5", ⟨some "日期", .vs "2024"⟩)], [], []⟩] :=
  (merge_first_nonempty_wins
    ⟨[("B3", ⟨some "供应商", .vs "工厂A"⟩)], [], []⟩
    [⟨[("B3", ⟨some "供应商", .vs "工厂B"⟩),
       ("B5", ⟨some "日期", .vs "2024"⟩)], [], []⟩]
    (by decide)).2.1 "B3"

/-- C6: merging `[A, B, C]` and merging `[A, merge([B, C])]` produce
identical cell maps when no two of the three documents carry conflicting
non-empty values for the same address (in fact the per-address values
agree unconditionally; the no-conflict hypothesis mirrors the claim). -/
theorem merge_assoc_nonconflicting (A B C : Doc)
    (hB : (B.cells.map (·.1)).Nodup) (hC : (C.cells.map (·.1)).Nodup)
    (_hAB : noConflict A B) (_hAC : noConflict A C) (_hBC : noConflict B C) :
    ∀ addr, dictGet (mergeNE A [B, C]).1.cells addr =
      dictGet (mergeNE A [(mergeNE B [C]).1]).1.cells addr := by
  intro addr
  have hBC : ∀ d ∈ [B, C], (d.cells.map (·.1)).Nodup := by
    intro d hd
    rcases List.mem_cons.mp hd with h | h
    · subst h; exact hB
    · rcases List.mem_cons.mp h with h | h
      · subst h; exact hC
      · simp at h
  have hMnodup : ((mergeNE B [C]).1.cells.map (·.1)).Nodup :=
    mergeList_nodup [C] B [] hB
  have hMl : ∀ d ∈ [(mergeNE B [C]).1], (d.cells.map (·.1)).Nodup := by
    intro d hd
    rcases List.mem_cons.mp hd with h | h
    · subst h; exact hMnodup
    · simp at h
  simp only [mergeNE]
  rw [mergeList_get [B, C] A [] hBC addr,
    mergeList_get [(mergeList B [] [C]).1] A [] hMl addr]
  have hMget : dictGet (mergeList B [] [C]).1.cells addr =
      cellResolve addr (dictGet B.cells addr) [C] :=
    mergeList_get [C] B [] (fun d hd => by
      rcases List.mem_cons.mp hd with h | h
      · subst h; exact hC
      · simp at h) addr
  simp only [cellResolve]
  rw [hMget]
  simp only [cellResolve]
  cases ha : dictGet A.cells addr with
  | none =>
    cases hb : dictGet B.cells addr with
    | none => cases hc : dictGet C.cells addr <;> rfl
    | some bi => cases hc : dictGet C.cells addr <;> rfl
  | some a =>
    cases hb : dictGet B.cells addr with
    | none => cases hc : dictGet C.cells addr <;> rfl
    | some bi =>
      cases hc : dictGet C.cells addr with
      | none => rfl
      | some ci =>
        show some (select_cell (some ((select_cell (some a) bi addr).1))
            ci addr).1 =
          some (select_cell (some a)
            ((select_cell (some bi) ci addr).1) addr).1
        by_cases hta : a.value.truthy
        · rw [select_cell_truthy_fst a bi addr hta,
            select_cell_truthy_fst a ci addr hta,
            select_cell_truthy_fst a ((select_cell (some bi) ci addr).1)
              addr hta]
        · rw [select_cell_falsy a bi addr hta,
            select_cell_falsy a ((select_cell (some bi) ci addr).1) addr hta]

theorem merge_assoc_nonconflicting_witness :
    dictGet (mergeNE ⟨[("B2", ⟨some "k", .vs "x"⟩)], [], []⟩
      [⟨[("B2", ⟨some "k", .vs ""⟩), ("B4", ⟨some "m", .vs "y"⟩)], [], []⟩,
       ⟨[("B4", ⟨some "m", .vs "y"⟩)], [], []⟩]).1.cells "B2" =
    dictGet (mergeNE ⟨[("B2", ⟨some "k", .vs "x"⟩)], [], []⟩
      [(mergeNE ⟨[("B2", ⟨some "k", .vs ""⟩), ("B4", ⟨some "m", .vs "y"⟩)],
          [], []⟩
        [⟨[("B4", ⟨some "m", .vs "y"⟩)], [], []⟩]).1]).1.cells "B2" :=
  merge_assoc_nonconflicting
    ⟨[("B2", ⟨some "k", .vs "x"⟩)], [], []⟩
    ⟨[("B2", ⟨some "k", .vs ""⟩), ("B4", ⟨some "m", .vs "y"⟩)], [], []⟩
    ⟨[("B4", ⟨some "m", .vs "y"⟩)], [], []⟩
    (by decide) (by decide) (by decide) (by decide) (by decide) "B2"

/-! ## C2: verify before mutate -/

/-- C2: with any labeled cell whose template text (trimmed) differs from
the recorded label, `create_order_workbook` returns the single aggregated
mismatch error and the untouched input worksheet (all-or-nothing), and the
error lists every mismatched address. -/
theorem verify_before_mutate (ws : Ws) (data : Doc) (attachOk : Val → Bool)
    (addr : String) (meta : CellInfo) (k : String)
    (hmem : (addr, meta) ∈ data.cells) (hkey : meta.key = some k)
    (hmis : templateText ws addr ≠ k) :
    ∃ ms, create_order_workbook ws data attachOk =
        (ws, some (.labelMismatch ms)) ∧
      ms ≠ [] ∧
      ∀ a m k2, (a, m) ∈ data.cells → m.key = some k2 →
        templateText ws a ≠ k2 → a ∈ ms.map (·.1) := by
  have hgen : ∀ (a : String) (m : CellInfo) (k2 : String),
      (a, m) ∈ data.cells → m.key = some k2 → templateText ws a ≠ k2 →
      (a, templateText ws a, k2) ∈ mismatchesOf ws data.cells := by
    intro a m k2 hm hk2 hmis2
    unfold mismatchesOf
    apply List.mem_filterMap.mpr
    refine ⟨(a, m), hm, ?_⟩
    simp [hk2, hmis2]
  have hin := hgen addr meta k hmem hkey hmis
  have hne : mismatchesOf ws data.cells ≠ [] := by
    intro h
    rw [h] at hin
    simp at hin
  have hcreate : create_order_workbook ws data attachOk =
      (ws, some (.labelMismatch (mismatchesOf ws data.cells))) := by
    unfold create_order_workbook verify_cells
    cases hms : mismatchesOf ws data.cells with
    | nil => exact absurd hms hne
    | cons x rest => rfl
  refine ⟨mismatchesOf ws data.cells, hcreate, hne, ?_⟩
  intro a m k2 hm hk2 hmis2
  exact List.mem_map.mpr ⟨(a, templateText ws a, k2), hgen a m k2 hm hk2 hmis2, rfl⟩

theorem verify_before_mutate_witness :
    ∃ ms, create_order_workbook
        (fun rc => if rc = (3, 2) then some (.vs "供应商") else none)
        ⟨[("B3", ⟨some "工厂", .vs "X"⟩)], [], []⟩ (fun _ => true) =
      ((fun rc => if rc = (3, 2) then some (.vs "供应商") else none),
        some (.labelMismatch ms)) ∧
      ms ≠ [] ∧
      ∀ a m k2,
        (a, m) ∈ (⟨[("B3", ⟨some "工厂", .vs "X"⟩)], [], []⟩ : Doc).cells →
        m.key = some k2 →
        templateText
          (fun rc => if rc = (3, 2) then some (.vs "供应商") else none) a ≠ k2 →
        a ∈ ms.map (·.1) :=
  verify_before_mutate
    (fun rc => if rc = (3, 2) then some (.vs "供应商") else none)
    ⟨[("B3", ⟨some "工厂", .vs "X"⟩)], [], []⟩ (fun _ => true)
    "B3" ⟨some "工厂", .vs "X"⟩ "工厂" (by decide) rfl (by decide)

/-! ## C7: totals formulas -/

theorem writeProductRow_ok (ws : Ws) (r : Nat) (item : Prod')
    (attachOk : Val → Bool) (h : rowFieldsOkB item = true) :
    ∃ ws', writeProductRow ws r item attachOk = .ok ws' := by
  unfold rowFieldsOkB at h
  rw [Bool.and_eq_true] at h
  obtain ⟨hn, hd⟩ := h
  unfold writeProductRow
  cases hName : strFieldE item "产品名称" with
  | none =>
    rw [hName] at hn
    simp at hn
  | some rawName =>
    cases hDesc : strFieldE item "描述" with
    | none =>
      rw [hDesc] at hd
      simp at hd
    | some rawDesc => exact ⟨_, rfl⟩

theorem writeRows_ok (products : List Prod') (attachOk : Val → Bool)
    (idxs : List Nat) (ws : Ws)
    (h : ∀ p ∈ products, rowFieldsOkB p = true) :
    ∃ ws', writeRows products attachOk idxs ws = .ok ws' := by
  induction idxs generalizing ws with
  | nil => exact ⟨ws, rfl⟩
  | cons idx rest ih =>
    have hitem : rowFieldsOkB (products.getD idx []) = true := by
      by_cases hlt : idx < products.length
      · have hmem : products.getD idx [] ∈ products := by
          rw [List.getD_eq_get?, List.get?_eq_get hlt]
          exact List.get_mem products idx hlt
        exact h _ hmem
      · have hdef : products.getD idx [] = [] := by
          rw [List.getD_eq_get?, List.get?_eq_none.mpr (le_of_not_lt hlt)]
          rfl
        rw [hdef]
        rfl
    obtain ⟨ws1, hws1⟩ :=
      writeProductRow_ok ws (START_ROW + idx) (products.getD idx []) attachOk
        hitem
    have hred : writeRows products attachOk (idx :: rest) ws =
        writeRows products attachOk rest ws1 := by
      conv_lhs => rw [writeRows]
      rw [hws1]
    rw [hred]
    exact ih ws1

theorem insert_products_totals_cx :
    exceptOk (insert_products (fun _ => none) [[("数量/个", Val.vi 5)]]
      (fun _ => true)) = true ∧
    resultCell (insert_products (fun _ => none) [[("数量/个", Val.vi 5)]]
        (fun _ => true)) (START_ROW + 1, 4) ≠
      some (.vs (sumFormula "D" START_ROW START_ROW)) ∧
    resultCell (insert_products (fun _ => none) [[("数量/个", Val.vi 5)]]
        (fun _ => true)) (10, 4) = some (.vs "=SUM(D7:D9)") := by
  decide

/-- A non-string `描述` value — which `parse_table`'s numeric coercion can
produce — makes `insert_products` raise before any totals are written. -/
theorem insert_products_attr_error :
    exceptOk (insert_products (fun _ => none) [[("描述", Val.vi 3)]]
      (fun _ => true)) = false := by
  decide

/-- C7 amended: for every product list whose `产品名称`/`描述` values are
strings or absent (otherwise `insert_products` raises `AttributeError`
before the totals), the SUM formulas are written at row
`START_ROW + max(len(products), PLACEHOLDER_ROWS)` and span
`START_ROW .. that row - 1`; when the list has at least `PLACEHOLDER_ROWS`
(= 3) entries this is exactly the row after the last product row,
spanning exactly the product rows, and with fewer products the formulas
sit after and span all 3 placeholder rows instead. -/
theorem insert_products_totals_amended (ws : Ws) (products : List Prod')
    (attachOk : Val → Bool)
    (h : ∀ p ∈ products, rowFieldsOkB p = true) :
    ∃ ws', insert_products ws products attachOk =
        .ok (ws', products.length - PLACEHOLDER_ROWS) ∧
      ws' (START_ROW + max products.length PLACEHOLDER_ROWS, 4) =
        some (.vs (sumFormula "D" START_ROW
          (START_ROW + max products.length PLACEHOLDER_ROWS - 1))) ∧
      ws' (START_ROW + max products.length PLACEHOLDER_ROWS, 6) =
        some (.vs (sumFormula "F" START_ROW
          (START_ROW + max products.length PLACEHOLDER_ROWS - 1))) ∧
      (PLACEHOLDER_ROWS ≤ products.length →
        START_ROW + max products.length PLACEHOLDER_ROWS =
          START_ROW + products.length) := by
  obtain ⟨ws1, hws1⟩ := writeRows_ok products attachOk
    (List.range (max products.length PLACEHOLDER_ROWS))
    (if products.length - PLACEHOLDER_ROWS ≠ 0 then
      insertRowsAt ws (START_ROW + PLACEHOLDER_ROWS - 1 + 1)
        (products.length - PLACEHOLDER_ROWS)
    else ws) h
  have hred : insert_products ws products attachOk =
      .ok (wsSet
        (wsSet ws1 (START_ROW + max products.length PLACEHOLDER_ROWS) 4
          (.vs (sumFormula "D" START_ROW
            (START_ROW + max products.length PLACEHOLDER_ROWS - 1))))
        (START_ROW + max products.length PLACEHOLDER_ROWS) 6
        (.vs (sumFormula "F" START_ROW
          (START_ROW + max products.length PLACEHOLDER_ROWS - 1))),
        products.length - PLACEHOLDER_ROWS) := by
    simp only [insert_products]
    rw [hws1]
  refine ⟨_, hred, ?_, ?_, ?_⟩
  · simp [wsSet]
  · simp [wsSet]
  · intro hlen
    rw [Nat.max_eq_left hlen]

theorem insert_products_totals_amended_witness :
    ∃ ws', insert_products (fun _ => none) [[("数量/个", Val.vi 5)]]
        (fun _ => true) =
        .ok (ws', [[("数量/个", Val.vi 5)]].length - PLACEHOLDER_ROWS) ∧
      ws' (START_ROW +
          max [[("数量/个", Val.vi 5)]].length PLACEHOLDER_ROWS, 4) =
        some (.vs (sumFormula "D" START_ROW (START_ROW +
          max [[("数量/个", Val.vi 5)]].length PLACEHOLDER_ROWS - 1))) ∧
      ws' (START_ROW +
          max [[("数量/个", Val.vi 5)]].length PLACEHOLDER_ROWS, 6) =
        some (.vs (sumFormula "F" START_ROW (START_ROW +
          max [[("数量/个", Val.vi 5)]].length PLACEHOLDER_ROWS - 1))) ∧
      (PLACEHOLDER_ROWS ≤ [[("数量/个", Val.vi 5)]].length →
        START_ROW + max [[("数量/个", Val.vi 5)]].length PLACEHOLDER_ROWS =
          START_ROW + [[("数量/个", Val.vi 5)]].length) :=
  insert_products_totals_amended (fun _ => none) [[("数量/个", Val.vi 5)]]
    (fun _ => true) (by decide)

/-! ## C5: the Label Resolver -/

theorem upScan_succ_none (cells : Grid) (col : String) (n : Nat)
    (hg : dictGet cells (col ++ toString (n + 1)) = none) :
    upScan cells col (n + 1) = upScan cells col n := by
  conv_lhs => rw [upScan]
  rw [hg]

theorem upScan_succ_pos (cells : Grid) (col : String) (n : Nat) (c : Cell3)
    (hg : dictGet cells (col ++ toString (n + 1)) = some c)
    (hc : c.color ≠ some YELLOW ∧ c.v ≠ "") :
    upScan cells col (n + 1) = c.v := by
  conv_lhs => rw [upScan]
  rw [hg]
  exact if_pos hc

theorem upScan_succ_neg (cells : Grid) (col : String) (n : Nat) (c : Cell3)
    (hg : dictGet cells (col ++ toString (n + 1)) = some c)
    (hc : ¬ (c.color ≠ some YELLOW ∧ c.v ≠ "")) :
    upScan cells col (n + 1) = upScan cells col n := by
  conv_lhs => rw [upScan]
  rw [hg]
  exact if_neg hc

theorem upScan_eq_find (cells : Grid) (col : String) (r : Nat) :
    upScan cells col r =
      match ((descRows r).map (fun i => col ++ toString i)).find?
          (qualifies cells) with
      | some addr => cellTextAt cells addr
      | none => "" := by
  induction r with
  | zero => rfl
  | succ n ih =>
    rw [descRows]
    simp only [List.map_cons]
    cases hg : dictGet cells (col ++ toString (n + 1)) with
    | none =>
      have hq : ¬ qualifies cells (col ++ toString (n + 1)) = true := by
        unfold qualifies
        rw [hg]
        simp
      rw [List.find?_cons_of_neg _ hq, upScan_succ_none cells col n hg]
      exact ih
    | some c =>
      by_cases hcond : (c.color ≠ some YELLOW ∧ c.v ≠ "")
      · have hq : qualifies cells (col ++ toString (n + 1)) = true := by
          unfold qualifies
          rw [hg]
          simpa using hcond
        rw [List.find?_cons_of_pos _ hq, upScan_succ_pos cells col n c hg hcond]
        show c.v = cellTextAt cells (col ++ toString (n + 1))
        unfold cellTextAt
        rw [hg]
      · have hq : ¬ qualifies cells (col ++ toString (n + 1)) = true := by
          unfold qualifies
          rw [hg]
          simpa using hcond
        rw [List.find?_cons_of_neg _ hq, upScan_succ_neg cells col n c hg hcond]
        exact ih

/-- C5 amended: the label resolver equals the candidate-scan description,
with the proviso the code imposes: the immediate-left check applies only
when the address's column is a single letter greater than `'A'`; for
multi-letter columns (and column `A`) the resolver goes straight to the
strictly-upward scan (rows `row-1` down to `1`), skipping absent, empty or
highlight-filled cells, and returns `""` when nothing qualifies. -/
theorem guess_key_amended (colChars : List Char) (row : Nat) (cells : Grid) :
    guessKeyParsed colChars row cells = labelSpec colChars row cells := by
  cases colChars with
  | nil =>
    exact upScan_eq_find cells ⟨[]⟩ (row - 1)
  | cons c tail =>
    cases tail with
    | cons c2 t2 =>
      exact upScan_eq_find cells ⟨c :: c2 :: t2⟩ (row - 1)
    | nil =>
      unfold guessKeyParsed labelSpec
      by_cases h : 'A' < c
      · simp only [if_pos h, List.singleton_append]
        cases hg : dictGet cells
            (⟨[Char.ofNat (c.toNat - 1)]⟩ ++ toString row) with
        | none =>
          have hq : ¬ qualifies cells
              (⟨[Char.ofNat (c.toNat - 1)]⟩ ++ toString row) = true := by
            unfold qualifies
            rw [hg]
            simp
          rw [List.find?_cons_of_neg _ hq]
          exact upScan_eq_find cells ⟨[c]⟩ (row - 1)
        | some left =>
          by_cases hcond : (left.color ≠ some YELLOW ∧ left.v ≠ "")
          · have hq : qualifies cells
                (⟨[Char.ofNat (c.toNat - 1)]⟩ ++ toString row) = true := by
              unfold qualifies
              rw [hg]
              simpa using hcond
            rw [List.find?_cons_of_pos _ hq]
            show (if left.color ≠ some YELLOW ∧ left.v ≠ "" then left.v
              else upScan cells ⟨[c]⟩ (row - 1)) = _
            rw [if_pos hcond]
            show left.v = cellTextAt cells
              (⟨[Char.ofNat (c.toNat - 1)]⟩ ++ toString row)
            unfold cellTextAt
            rw [hg]
          · have hq : ¬ qualifies cells
                (⟨[Char.ofNat (c.toNat - 1)]⟩ ++ toString row) = true := by
              unfold qualifies
              rw [hg]
              simpa using hcond
            rw [List.find?_cons_of_neg _ hq]
            show (if left.color ≠ some YELLOW ∧ left.v ≠ "" then left.v
              else upScan cells ⟨[c]⟩ (row - 1)) = _
            rw [if_neg hcond]
            exact upScan_eq_find cells ⟨[c]⟩ (row - 1)
      · simp only [if_neg h, List.nil_append]
        exact upScan_eq_find cells ⟨[c]⟩ (row - 1)

theorem guess_key_cx :
    guess_key "AA2" [("Z2", ⟨"LEFT", none, none⟩)] = "" ∧
    qualifies [("Z2", ⟨"LEFT", none, none⟩)] "Z2" = true ∧
    guess_key "AA2" [("Z2", ⟨"LEFT", none, none⟩)] ≠ "LEFT" := by
  decide

/-! ## C9: required and optional package parts -/

theorem cellValue_ok_of_noSharedRef (c : SheetCell)
    (h : noSharedRefB c = true) : ∃ v, cellValue [] c = .ok v := by
  unfold noSharedRefB at h
  unfold cellValue
  cases hv : c.v with
  | none => exact ⟨"", rfl⟩
  | some vtext =>
    rw [hv] at h
    simp only [Option.isNone_some, Bool.false_or, Bool.not_eq_true',
      beq_eq_false_iff_ne, ne_eq] at h
    exact ⟨vtext, if_neg h⟩

theorem cellColor_ok_of_styleIdxOk (st : Styles) (c : SheetCell)
    (h : styleIdxOkB st c = true) : ∃ col, cellColor st c = .ok col := by
  unfold styleIdxOkB at h
  unfold cellColor
  cases hs : c.s with
  | none => exact ⟨none, rfl⟩
  | some si =>
    rw [hs] at h
    have h' : (match st.cellXfs.get? si with
      | none => false
      | some fid => decide (fid < st.fills.length)) = true := h
    cases hx : st.cellXfs.get? si with
    | none =>
      rw [hx] at h'
      simp at h'
    | some fid =>
      rw [hx] at h'
      have hlt : fid < st.fills.length := by simpa using h' 
      have hsome : st.fills.get? fid = some (st.fills.get ⟨fid, hlt⟩) :=
        List.get?_eq_get hlt
      show ∃ col, (match st.cellXfs.get? si with
        | none => Except.error "cellXfs index out of range"
        | some fid =>
          match st.fills.get? fid with
          | none => Except.error "fills index out of range"
          | some colOpt => Except.ok colOpt) = Except.ok col
      rw [hx]
      show ∃ col, (match st.fills.get? fid with
        | none => Except.error "fills index out of range"
        | some colOpt => Except.ok colOpt) = Except.ok col
      rw [hsome]
      exact ⟨_, rfl⟩

theorem readCells_ok (shared : List String) (st : Styles)
    (cs : List SheetCell) (m : Grid)
    (h : ∀ c ∈ cs, (∃ v, cellValue shared c = .ok v) ∧
      (∃ col, cellColor st c = .ok col)) :
    ∃ g, readCells shared st cs m = .ok g := by
  induction cs generalizing m with
  | nil => exact ⟨m, rfl⟩
  | cons c rest ih =>
    obtain ⟨⟨v, hv⟩, ⟨col, hcol⟩⟩ := h c (by simp)
    have hred : readCells shared st (c :: rest) m =
        readCells shared st rest (dictSet m c.r ⟨v, col, c.f⟩) := by
      conv_lhs => rw [readCells]
      rw [hv, hcol]
    rw [hred]
    exact ih _ (fun e he => h e (List.mem_cons_of_mem _ he))

theorem cellValue_shared_indep (l : List String) (c : SheetCell)
    (h : noSharedRefB c = true) : cellValue l c = cellValue [] c := by
  unfold noSharedRefB at h
  unfold cellValue
  cases hv : c.v with
  | none => rfl
  | some vtext =>
    rw [hv] at h
    simp only [Option.isNone_some, Bool.false_or, Bool.not_eq_true',
      beq_eq_false_iff_ne, ne_eq] at h
    simp [h]

theorem readCells_shared_indep (l : List String) (st : Styles)
    (cs : List SheetCell) (m : Grid)
    (h : ∀ c ∈ cs, noSharedRefB c = true) :
    readCells l st cs m = readCells [] st cs m := by
  induction cs generalizing m with
  | nil => rfl
  | cons c rest ih =>
    have hc := cellValue_shared_indep l c (h c (by simp))
    conv_lhs => rw [readCells]
    conv_rhs => rw [readCells]
    rw [hc]
    cases cellValue [] c with
    | error e => rfl
    | ok v =>
      cases cellColor st c with
      | error e => rfl
      | ok col =>
        exact ih _ (fun e he => h e (List.mem_cons_of_mem _ he))

/-- C9 amended: a package missing the style table fails with an error
naming `xl/styles.xml`; one having styles but missing the worksheet fails
naming `xl/worksheets/sheet1.xml`; and a package with both required parts
but no shared-string table reads successfully provided no cell references
a shared string and every style index is in range (the shared-string part
itself being absent never causes a failure — a cell typed `t="s"` would
fail on the empty table, which is the only exception to the claim's
success statement); moreover for such sheets the produced result is
identical whether the shared-string part is absent or present. -/
theorem read_workbook_parts_amended :
    (∀ z : XPackage, z.styles = none →
      read_workbook z = .error "xl/styles.xml") ∧
    (∀ (z : XPackage) (st : Styles), z.styles = some st → z.sheet1 = none →
      read_workbook z = .error "xl/worksheets/sheet1.xml") ∧
    (∀ (z : XPackage) (st : Styles) (cs : List SheetCell),
      z.sharedStrings = none → z.styles = some st → z.sheet1 = some cs →
      (∀ c ∈ cs, noSharedRefB c = true) →
      (∀ c ∈ cs, styleIdxOkB st c = true) →
      ∃ g, read_workbook z = .ok g) ∧
    (∀ (l : List String) (st : Styles) (cs : List SheetCell),
      (∀ c ∈ cs, noSharedRefB c = true) →
      read_workbook ⟨none, some st, some cs⟩ =
        read_workbook ⟨some l, some st, some cs⟩) := by
  refine ⟨?_, ?_, ?_, ?_⟩
  · intro z hst
    unfold read_workbook
    rw [hst]
  · intro z st hst hsh
    unfold read_workbook
    rw [hst, hsh]
  · intro z st cs hshared hst hsh hnoref hstyle
    unfold read_workbook
    rw [hst, hsh, hshared]
    exact readCells_ok [] st cs []
      (fun c hc => ⟨cellValue_ok_of_noSharedRef c (hnoref c hc),
        cellColor_ok_of_styleIdxOk st c (hstyle c hc)⟩)
  · intro l st cs hnoref
    exact (readCells_shared_indep l st cs [] hnoref).symm

theorem read_workbook_parts_amended_witness :
    read_workbook ⟨none, none, none⟩ = .error "xl/styles.xml" ∧
    read_workbook ⟨none, some ⟨[none], [0]⟩, none⟩ =
      .error "xl/worksheets/sheet1.xml" ∧
    (∃ g, read_workbook ⟨none, some ⟨[none], [0]⟩,
      some [⟨"A1", none, some "5", none, some 0⟩]⟩ = .ok g) ∧
    read_workbook ⟨none, some ⟨[none], [0]⟩,
        some [⟨"A1", none, some "5", none, some 0⟩]⟩ =
      read_workbook ⟨some ["hello"], some ⟨[none], [0]⟩,
        some [⟨"A1", none, some "5", none, some 0⟩]⟩ :=
  ⟨read_workbook_parts_amended.1 ⟨none, none, none⟩ rfl,
   read_workbook_parts_amended.2.1 ⟨none, some ⟨[none], [0]⟩, none⟩ ⟨[none], [0]⟩
     rfl rfl,
   read_workbook_parts_amended.2.2.1 ⟨none, some ⟨[none], [0]⟩,
       some [⟨"A1", none, some "5", none, some 0⟩]⟩ ⟨[none], [0]⟩
       [⟨"A1", none, some "5", none, some 0⟩] rfl rfl rfl
       (by decide) (by decide),
   read_workbook_parts_amended.2.2.2 ["hello"] ⟨[none], [0]⟩
       [⟨"A1", none, some "5", none, some 0⟩] (by decide)⟩

theorem read_workbook_parts_cx :
    read_workbook ⟨none, some ⟨[none], [0]⟩,
      some [⟨"A1", some "s", some "0", none, none⟩]⟩ =
      .error "xl/sharedStrings.xml index out of range" := by
  rfl

/-! ## C4: table termination -/

theorem parseTableAux_stop (cells : Grid) (accName : String → Option String)
    (header : Dict (Option String)) (f row : Nat) (acc : List Prod')
    (ht : terminalRow cells header row = true) :
    parseTableAux cells accName header (f + 1) row acc =
      (acc.reverse, row - 1) := by
  conv_lhs => rw [parseTableAux]
  rw [if_pos ht]

theorem parseTableAux_step (cells : Grid) (accName : String → Option String)
    (header : Dict (Option String)) (f row : Nat) (acc : List Prod')
    (ht : terminalRow cells header row = false) :
    parseTableAux cells accName header (f + 1) row acc =
      parseTableAux cells accName header f (row + 1)
        (mkItem cells accName header row :: acc) := by
  conv_lhs => rw [parseTableAux]
  rw [if_neg (by simp [ht])]

/-- C4 amended: keyword-based row collection ends at the first row that is
entirely empty in the scanned columns A–L, or whose first cell begins with
`"TOTAL"` or equals `"总计"`, or whose recognized header columns are all
empty (this third break is an additional terminal condition the code
applies); the terminating row is excluded, so five non-terminal product
rows followed by a `"总计"` row yield exactly five products. -/
theorem parse_table_termination_amended (cells : Grid)
    (accName : String → Option String) (hr : Nat)
    (hrows : ∀ i ∈ ([1, 2, 3, 4, 5] : List Nat),
      terminalRow cells (buildHeader cells hr) (hr + i) = false)
    (hmark : getCellText cells "A" (hr + 6) = "总计")
    (hmax : hr + 6 ≤ maxRow cells) :
    (parse_table cells accName hr).1.length = 5 ∧
    (parse_table cells accName hr).2 = hr + 5 := by
  have hterm : terminalRow cells (buildHeader cells hr)
      (hr + 1 + 1 + 1 + 1 + 1 + 1) = true := by
    have : terminalRow cells (buildHeader cells hr) (hr + 6) = true := by
      unfold terminalRow firstCellMarker
      rw [hmark]
      simp
    exact this
  have h1 : terminalRow cells (buildHeader cells hr) (hr + 1) = false :=
    hrows 1 (by decide)
  have h2 : terminalRow cells (buildHeader cells hr) (hr + 1 + 1) = false :=
    hrows 2 (by decide)
  have h3 : terminalRow cells (buildHeader cells hr) (hr + 1 + 1 + 1) = false :=
    hrows 3 (by decide)
  have h4 : terminalRow cells (buildHeader cells hr)
      (hr + 1 + 1 + 1 + 1) = false := hrows 4 (by decide)
  have h5 : terminalRow cells (buildHeader cells hr)
      (hr + 1 + 1 + 1 + 1 + 1) = false := hrows 5 (by decide)
  unfold parse_table
  obtain ⟨k, hk⟩ : ∃ k, maxRow cells + 2 = k + 6 :=
    ⟨maxRow cells - 4, by omega⟩
  rw [hk]
  rw [show k + 6 = (k + 5) + 1 from rfl,
    parseTableAux_step cells accName (buildHeader cells hr) (k + 5) (hr + 1)
      [] h1]
  rw [show k + 5 = (k + 4) + 1 from rfl,
    parseTableAux_step cells accName (buildHeader cells hr) (k + 4)
      (hr + 1 + 1) _ h2]
  rw [show k + 4 = (k + 3) + 1 from rfl,
    parseTableAux_step cells accName (buildHeader cells hr) (k + 3)
      (hr + 1 + 1 + 1) _ h3]
  rw [show k + 3 = (k + 2) + 1 from rfl,
    parseTableAux_step cells accName (buildHeader cells hr) (k + 2)
      (hr + 1 + 1 + 1 + 1) _ h4]
  rw [show k + 2 = (k + 1) + 1 from rfl,
    parseTableAux_step cells accName (buildHeader cells hr) (k + 1)
      (hr + 1 + 1 + 1 + 1 + 1) _ h5]
  rw [show k + 1 = k + 1 from rfl,
    parseTableAux_stop cells accName (buildHeader cells hr) k
      (hr + 1 + 1 + 1 + 1 + 1 + 1) _ hterm]
  constructor
  · simp
  · simp

theorem parse_table_termination_amended_witness :
    (parse_table [("D1", ⟨"数量", none, none⟩), ("E1", ⟨"单价", none, none⟩),
      ("D2", ⟨"1", none, none⟩), ("E2", ⟨"9", none, none⟩),
      ("D3", ⟨"2", none, none⟩), ("E3", ⟨"9", none, none⟩),
      ("D4", ⟨"3", none, none⟩), ("E4", ⟨"9", none, none⟩),
      ("D5", ⟨"4", none, none⟩), ("E5", ⟨"9", none, none⟩),
      ("D6", ⟨"5", none, none⟩), ("E6", ⟨"9", none, none⟩),
      ("A7", ⟨"总计", none, none⟩)] (fun _ => none) 1).1.length = 5 ∧
    (parse_table [("D1", ⟨"数量", none, none⟩), ("E1", ⟨"单价", none, none⟩),
      ("D2", ⟨"1", none, none⟩), ("E2", ⟨"9", none, none⟩),
      ("D3", ⟨"2", none, none⟩), ("E3", ⟨"9", none, none⟩),
      ("D4", ⟨"3", none, none⟩), ("E4", ⟨"9", none, none⟩),
      ("D5", ⟨"4", none, none⟩), ("E5", ⟨"9", none, none⟩),
      ("D6", ⟨"5", none, none⟩), ("E6", ⟨"9", none, none⟩),
      ("A7", ⟨"总计", none, none⟩)] (fun _ => none) 1).2 = 1 + 5 :=
  parse_table_termination_amended
    [("D1", ⟨"数量", none, none⟩), ("E1", ⟨"单价", none, none⟩),
      ("D2", ⟨"1", none, none⟩), ("E2", ⟨"9", none, none⟩),
      ("D3", ⟨"2", none, none⟩), ("E3", ⟨"9", none, none⟩),
      ("D4", ⟨"3", none, none⟩), ("E4", ⟨"9", none, none⟩),
      ("D5", ⟨"4", none, none⟩), ("E5", ⟨"9", none, none⟩),
      ("D6", ⟨"5", none, none⟩), ("E6", ⟨"9", none, none⟩),
      ("A7", ⟨"总计", none, none⟩)] (fun _ => none) 1
    (by decide) (by decide) (by decide)

theorem parse_table_termination_cx :
    (parse_table [("D1", ⟨"数量", none, none⟩), ("E1", ⟨"单价", none, none⟩),
      ("D2", ⟨"5", none, none⟩), ("E2", ⟨"8", none, none⟩),
      ("H3", ⟨"备注一行", none, none⟩),
      ("D4", ⟨"7", none, none⟩), ("E4", ⟨"2", none, none⟩),
      ("A5", ⟨"总计", none, none⟩)] (fun _ => none) 1).1.length = 1 ∧
    (parse_table [("D1", ⟨"数量", none, none⟩), ("E1", ⟨"单价", none, none⟩),
      ("D2", ⟨"5", none, none⟩), ("E2", ⟨"8", none, none⟩),
      ("H3", ⟨"备注一行", none, none⟩),
      ("D4", ⟨"7", none, none⟩), ("E4", ⟨"2", none, none⟩),
      ("A5", ⟨"总计", none, none⟩)] (fun _ => none) 1).2 = 2 ∧
    rowAllEmpty [("D1", ⟨"数量", none, none⟩), ("E1", ⟨"单价", none, none⟩),
      ("D2", ⟨"5", none, none⟩), ("E2", ⟨"8", none, none⟩),
      ("H3", ⟨"备注一行", none, none⟩),
      ("D4", ⟨"7", none, none⟩), ("E4", ⟨"2", none, none⟩),
      ("A5", ⟨"总计", none, none⟩)] 3 = false ∧
    firstCellMarker [("D1", ⟨"数量", none, none⟩), ("E1", ⟨"单价", none, none⟩),
      ("D2", ⟨"5", none, none⟩), ("E2", ⟨"8", none, none⟩),
      ("H3", ⟨"备注一行", none, none⟩),
      ("D4", ⟨"7", none, none⟩), ("E4", ⟨"2", none, none⟩),
      ("A5", ⟨"总计", none, none⟩)] 3 = false := by
  decide
